import Mathlib

/-!
Shallow embedding of the `hex_color` crate (src/lib.rs, src/ops.rs, src/rand.rs)
and proofs about its specification.

Strings are modelled as `List Char`.  Machine integers are modelled as `Nat`
(for `u8` values, always kept below 256 via explicit clamping or validity
hypotheses) or `Int` (for `i32` scalars, with explicit range checks where the
source can overflow).  A Rust panic (debug-mode integer overflow, division by
zero, `clamp` with inverted bounds) is modelled by returning `none`.
-/

/- ## Data model (src/lib.rs)

`pub struct HexColor { pub r: u8, pub g: u8, pub b: u8, pub a: Option<u8> }` -/

structure HexColor where
  r : Nat
  g : Nat
  b : Nat
  a : Option Nat
deriving DecidableEq, Repr

instance : DecidableEq (Except (List Char) HexColor) := fun a b =>
  match a, b with
  | .ok x, .ok y => decidable_of_iff (x = y) (by simp)
  | .error x, .error y => decidable_of_iff (x = y) (by simp)
  | .ok _, .error _ => isFalse (by simp)
  | .error _, .ok _ => isFalse (by simp)

/-- `HexColor::rgb`: alpha is set to `None`. -/
def HexColor.rgb (r g b : Nat) : HexColor := ⟨r, g, b, none⟩

/-- `HexColor::rgba`: alpha is always `Some(a)`. -/
def HexColor.rgba (r g b a : Nat) : HexColor := ⟨r, g, b, some a⟩

/-- All components are in the `u8` range.  This is an invariant of every
`HexColor` the Rust code can construct (its fields are `u8`/`Option<u8>`);
in the `Nat` embedding it is carried as an explicit hypothesis. -/
def HexColor.Valid (c : HexColor) : Prop :=
  c.r ≤ 255 ∧ c.g ≤ 255 ∧ c.b ≤ 255 ∧ ∀ x, c.a = some x → x ≤ 255

instance (c : HexColor) : Decidable c.Valid := by
  unfold HexColor.Valid
  cases h : c.a <;> exact inferInstance

/- ## Text codec (src/lib.rs)

The parser is driven by the regex
`(?i-u)^#?(?P<la>[[:xdigit:]]{8})|(?P<l>[[:xdigit:]]{6})|(?P<sa>[[:xdigit:]]{4})|(?P<s>[[:xdigit:]]{3})$`.
Note the precedence: `^#?` belongs only to the `la` alternative and `$` only to
the `s` alternative.  The model below reproduces the regex crate's
leftmost-first match semantics: scan start positions left to right, and at each
position try the four alternatives in pattern order. -/

/-- `[[:xdigit:]]`: ASCII `0-9`, `a-f`, `A-F`. -/
def isHexDigit (c : Char) : Bool :=
  decide ((48 ≤ c.toNat ∧ c.toNat ≤ 57) ∨ (97 ≤ c.toNat ∧ c.toNat ≤ 102) ∨
    (65 ≤ c.toNat ∧ c.toNat ≤ 70))

/-- The value of a hex digit, as assigned by `u8::from_str_radix(_, 16)`. -/
def hexVal (c : Char) : Nat :=
  if 48 ≤ c.toNat ∧ c.toNat ≤ 57 then c.toNat - 48
  else if 97 ≤ c.toNat ∧ c.toNat ≤ 102 then c.toNat - 97 + 10
  else if 65 ≤ c.toNat ∧ c.toNat ≤ 70 then c.toNat - 65 + 10
  else 0

/-- Rust's `char::is_whitespace` (the Unicode `White_Space` code points),
used by `str::trim`. -/
def is_whitespace (c : Char) : Bool :=
  c.toNat ∈ [9, 10, 11, 12, 13, 32, 133, 160, 5760, 8192, 8193, 8194, 8195,
    8196, 8197, 8198, 8199, 8200, 8201, 8202, 8232, 8233, 8239, 8287, 12288]

/-- `str::trim`: drop whitespace from both ends. -/
def trim (s : List Char) : List Char :=
  ((s.dropWhile is_whitespace).reverse.dropWhile is_whitespace).reverse

/-- Match exactly `n` hex digits at the head of `l`; return them and the rest. -/
def takeHex : Nat → List Char → Option (List Char × List Char)
  | 0, l => some ([], l)
  | _ + 1, [] => none
  | n + 1, c :: l =>
    if isHexDigit c then (takeHex n l).map (fun p => (c :: p.1, p.2)) else none

/-- The `la` alternative `^#?[[:xdigit:]]{8}`: anchored to the start of the
haystack; the greedy `#?` first tries to consume a `#`, then backtracks. -/
def tryLA (atStart : Bool) (l : List Char) : Option (List Char) :=
  if atStart then
    let withHash : Option (List Char) :=
      match l with
      | c :: rest => if c = '#' then (takeHex 8 rest).map Prod.fst else none
      | [] => none
    match withHash with
    | some d => some d
    | none => (takeHex 8 l).map Prod.fst
  else none

/-- Which named capture group of `HEX_COLOR` participated in the match,
together with the captured digits. -/
inductive HexGroup where
  | la (d : List Char)
  | l (d : List Char)
  | sa (d : List Char)
  | s (d : List Char)
deriving DecidableEq

/-- Try the four alternatives, in pattern order, at one start position.
`l` is the suffix of the haystack beginning at that position.
The `s` alternative `[[:xdigit:]]{3}$` requires the end of the haystack. -/
def tryMatch (atStart : Bool) (l : List Char) : Option HexGroup :=
  match tryLA atStart l with
  | some d => some (.la d)
  | none =>
    match takeHex 6 l with
    | some (d, _) => some (.l d)
    | none =>
      match takeHex 4 l with
      | some (d, _) => some (.sa d)
      | none =>
        match takeHex 3 l with
        | some (d, []) => some (.s d)
        | _ => none

/-- `HEX_COLOR.captures`: leftmost-first search over start positions. -/
def scanFrom : Bool → List Char → Option HexGroup
  | atStart, [] => tryMatch atStart []
  | atStart, c :: rest =>
    match tryMatch atStart (c :: rest) with
    | some g => some g
    | none => scanFrom false rest

/-- `get_long`: `u8::from_str_radix` on a two-hex-digit group. -/
def get_long (hi lo : Char) : Nat := 16 * hexVal hi + hexVal lo

/-- `get_short`: `u8::from_str_radix` on a one-hex-digit group repeated twice. -/
def get_short (c : Char) : Nat := 16 * hexVal c + hexVal c

/-- `<HexColor as FromStr>::from_str`.  The error carries the original
(untrimmed) input.  The inner `_ => .error s` arms model the `ok_or` fallbacks
on the `LA_COLOR`/`L_COLOR`/`SA_COLOR`/`S_COLOR` recaptures (unreachable,
since the captured group is always exactly 8/6/4/3 hex digits). -/
def HexColor.from_str (s : List Char) : Except (List Char) HexColor :=
  match scanFrom true (trim s) with
  | none => .error s
  | some (.la d) =>
    match d with
    | [r1, r2, g1, g2, b1, b2, a1, a2] =>
      .ok ⟨get_long r1 r2, get_long g1 g2, get_long b1 b2, some (get_long a1 a2)⟩
    | _ => .error s
  | some (.l d) =>
    match d with
    | [r1, r2, g1, g2, b1, b2] =>
      .ok ⟨get_long r1 r2, get_long g1 g2, get_long b1 b2, none⟩
    | _ => .error s
  | some (.sa d) =>
    match d with
    | [r1, g1, b1, a1] =>
      .ok ⟨get_short r1, get_short g1, get_short b1, some (get_short a1)⟩
    | _ => .error s
  | some (.s d) =>
    match d with
    | [r1, g1, b1] =>
      .ok ⟨get_short r1, get_short g1, get_short b1, none⟩
    | _ => .error s

/-- One uppercase hex digit, as produced by the `{:02X?}` format specifier. -/
def toHexDigitUpper (n : Nat) : Char :=
  if n < 10 then Char.ofNat (48 + n) else Char.ofNat (55 + n)

/-- A `u8` under `{:02X?}`: two uppercase hex digits, zero padded. -/
def byteToHex (n : Nat) : List Char :=
  [toHexDigitUpper (n / 16), toHexDigitUpper (n % 16)]

/-- `<HexColor as Display>::fmt`: `#RRGGBB`, plus `AA` iff alpha is present. -/
def HexColor.fmt (c : HexColor) : List Char :=
  '#' :: (byteToHex c.r ++ byteToHex c.g ++ byteToHex c.b ++
    (match c.a with
     | none => []
     | some a => byteToHex a))

/- ## Arithmetic engine (src/ops.rs) -/

/-- `u8::saturating_add` on byte values (inputs below 256). -/
def saturating_add (x y : Nat) : Nat := min (x + y) 255

/-- `u8::saturating_sub` on byte values; `Nat` subtraction is already
truncated at zero. -/
def saturating_sub (x y : Nat) : Nat := x - y

/-- `alpha_op`: the alpha-propagation rule shared by `Add`/`Sub` on two
colors.  `if let None = other_a { return self_a; }` then match on `self_a`. -/
def alpha_op (self_a other_a : Option Nat) (op : Nat → Nat → Nat) : Option Nat :=
  match other_a with
  | none => self_a
  | some o =>
    match self_a with
    | some a => some (op a o)
    | none => none

/-- `impl Add for HexColor`. -/
def HexColor.add (c other : HexColor) : HexColor :=
  ⟨saturating_add c.r other.r, saturating_add c.g other.g,
    saturating_add c.b other.b, alpha_op c.a other.a saturating_add⟩

/-- `impl Sub for HexColor`. -/
def HexColor.sub (c other : HexColor) : HexColor :=
  ⟨saturating_sub c.r other.r, saturating_sub c.g other.g,
    saturating_sub c.b other.b, alpha_op c.a other.a saturating_sub⟩

/-- Apply the scalar-op closure (`calcFn`, named `calc` in the source) to `r`,
`g`, `b`, and to `a` when it is present — the body shared by every `add_impl!`/`sub_impl!`/`mul_impl!`/
`div_impl!` instantiation.  `calcFn` returns `none` when the Rust expression
would panic. -/
def mapComponents (calcFn : Nat → Option Nat) (c : HexColor) : Option HexColor := do
  let r ← calcFn c.r
  let g ← calcFn c.g
  let b ← calcFn c.b
  match c.a with
  | some a =>
    let a' ← calcFn a
    pure ⟨r, g, b, some a'⟩
  | none => pure ⟨r, g, b, none⟩

def i32Min : Int := -2147483648
def i32Max : Int := 2147483647

/-- `Ord::clamp` to `[u8::MIN as i32, u8::MAX as i32] = [0, 255]`, followed by
the exact `as u8` cast. -/
def clampByte (x : Int) : Nat := (max 0 (min x 255)).toNat

/-- `|s: u8| (s as i32 + other).clamp(u8::MIN as i32, u8::MAX as i32) as u8`
from `add_impl! { i32 }`.  `s as i32` is exact for a byte; the i32 addition
overflows (a debug-mode panic, modelled as `none`) when the mathematical sum
leaves the i32 range. -/
def calc_add_i32 (other : Int) (s : Nat) : Option Nat :=
  let x : Int := (s : Int) + other
  if i32Min ≤ x ∧ x ≤ i32Max then some (clampByte x) else none

/-- `|s| (s as i32 - other).clamp(0, 255) as u8` from `sub_impl! { i32 }`. -/
def calc_sub_i32 (other : Int) (s : Nat) : Option Nat :=
  let x : Int := (s : Int) - other
  if i32Min ≤ x ∧ x ≤ i32Max then some (clampByte x) else none

/-- `|s| (s as i32 * other).clamp(0, 255) as u8` from `mul_impl! { i32 }`. -/
def calc_mul_i32 (other : Int) (s : Nat) : Option Nat :=
  let x : Int := (s : Int) * other
  if i32Min ≤ x ∧ x ≤ i32Max then some (clampByte x) else none

/-- `|s| (s as i32 / other).clamp(0, 255) as u8` from `div_impl! { i32 }`.
Rust `/` truncates toward zero (`Int.tdiv`); a zero divisor panics, modelled
as `none` (no error value of any kind is produced — the crate defines no
arithmetic error type). -/
def calc_div_i32 (other : Int) (s : Nat) : Option Nat :=
  if other = 0 then none
  else
    let x : Int := Int.tdiv (s : Int) other
    if i32Min ≤ x ∧ x ≤ i32Max then some (clampByte x) else none

/-- `impl Add<i32> for HexColor`. -/
def HexColor.add_i32 (c : HexColor) (other : Int) : Option HexColor :=
  mapComponents (calc_add_i32 other) c

/-- `impl Add<HexColor> for i32`: the body is `other + self`. -/
def i32_add_HexColor (n : Int) (c : HexColor) : Option HexColor :=
  c.add_i32 n

/-- `impl Sub<i32> for HexColor`. -/
def HexColor.sub_i32 (c : HexColor) (other : Int) : Option HexColor :=
  mapComponents (calc_sub_i32 other) c

/-- `impl Sub<HexColor> for i32`: the body is `other - self`, i.e. the
color-first subtraction with the same operands. -/
def i32_sub_HexColor (n : Int) (c : HexColor) : Option HexColor :=
  c.sub_i32 n

/-- `impl Mul<i32> for HexColor`. -/
def HexColor.mul_i32 (c : HexColor) (other : Int) : Option HexColor :=
  mapComponents (calc_mul_i32 other) c

/-- `impl Mul<HexColor> for i32`: the body is `other * self`. -/
def i32_mul_HexColor (n : Int) (c : HexColor) : Option HexColor :=
  c.mul_i32 n

/-- `impl Div<i32> for HexColor`.  There is no `impl Div<HexColor> for i32`. -/
def HexColor.div_i32 (c : HexColor) (other : Int) : Option HexColor :=
  mapComponents (calc_div_i32 other) c

/-- `|s: u8| (s as u8 + other).clamp(u8::MIN as u8, u8::MAX as u8) as u8` from
`add_impl! { u8 }`: the promoted domain is `u8` itself, so `s + other` is `u8`
addition and overflows (a debug-mode panic, a wrap in release mode — in either
case not a clamp) whenever the mathematical sum exceeds 255. -/
def calc_add_u8 (other : Nat) (s : Nat) : Option Nat :=
  if s + other ≤ 255 then some (max 0 (min (s + other) 255)) else none

/-- `impl Add<u8> for HexColor`. -/
def HexColor.add_u8 (c : HexColor) (other : Nat) : Option HexColor :=
  mapComponents (calc_add_u8 other) c

/-- `impl Add<HexColor> for u8`: the body is `other + self`. -/
def u8_add_HexColor (n : Nat) (c : HexColor) : Option HexColor :=
  c.add_u8 n

/-- Modelled from the spec: "scalar − color is defined as the mirror
(scalar − each channel, not channel − scalar)" — the comparison point for the
actual `impl Sub<HexColor> for i32`, which the crate does not define this
way. -/
def spec_mirror_sub_i32 (n : Int) (c : HexColor) : Option HexColor :=
  mapComponents (fun s =>
    let x : Int := n - (s : Int)
    if i32Min ≤ x ∧ x ≤ i32Max then some (clampByte x) else none) c

/- ## Random sampling (src/rand.rs) -/

/-- `Distribution<HexColor>::sample`: draw one `u32` and use its three
low-order bytes; `(u & 0xff) as u8` etc., built with `HexColor::rgb`. -/
def sample (u : Nat) : HexColor :=
  HexColor.rgb (u &&& 255) ((u >>> 8) &&& 255) ((u >>> 16) &&& 255)

/- ## Derived ordering (src/lib.rs, `derive(Ord, PartialOrd, Eq, PartialEq)`) -/

/-- `Ord::cmp` on `u8`. -/
def cmpNat (x y : Nat) : Ordering :=
  if x < y then .lt else if x = y then .eq else .gt

/-- The derived `Ord` on `Option<u8>`: `None` sorts before `Some`. -/
def cmpOptionNat : Option Nat → Option Nat → Ordering
  | none, none => .eq
  | none, some _ => .lt
  | some _, none => .gt
  | some x, some y => cmpNat x y

/-- The derived `Ord` on `HexColor`: fields compared in declaration order
`r`, `g`, `b`, `a`, first difference wins. -/
def HexColor.cmp (c other : HexColor) : Ordering :=
  match cmpNat c.r other.r with
  | .eq =>
    match cmpNat c.g other.g with
    | .eq =>
      match cmpNat c.b other.b with
      | .eq => cmpOptionNat c.a other.a
      | ord => ord
    | ord => ord
  | ord => ord

/- ## Helper lemmas -/

theorem hex_toNat {c : Char} (h : isHexDigit c = true) :
    (48 ≤ c.toNat ∧ c.toNat ≤ 57) ∨ (97 ≤ c.toNat ∧ c.toNat ≤ 102) ∨
      (65 ≤ c.toNat ∧ c.toNat ≤ 70) := by
  simpa [isHexDigit] using h

theorem hex_ne_hash {c : Char} (h : isHexDigit c = true) : ¬(c = '#') := by
  intro he
  subst he
  exact absurd h (by decide)

theorem hexVal_lt_16 {c : Char} (h : isHexDigit c = true) : hexVal c < 16 := by
  have := hex_toNat h
  unfold hexVal
  split_ifs <;> omega

theorem hex_not_ws {c : Char} (h : isHexDigit c = true) : is_whitespace c = false := by
  have := hex_toNat h
  simp [is_whitespace]
  omega

theorem hash_not_ws : is_whitespace '#' = false := by decide

theorem toUpper_eq_self {c : Char} (h : ¬(97 ≤ c.toNat ∧ c.toNat ≤ 122)) : c.toUpper = c := by
  simp [Char.toUpper, ge_iff_le, h]

theorem toUpper_eq_sub {c : Char} (h : 97 ≤ c.toNat ∧ c.toNat ≤ 122) :
    c.toUpper = Char.ofNat (c.toNat - 32) := by
  simp [Char.toUpper, ge_iff_le, h.1, h.2]

theorem toHexDigitUpper_hexVal {c : Char} (h : isHexDigit c = true) :
    toHexDigitUpper (hexVal c) = c.toUpper := by
  rcases hex_toNat h with h1 | h1 | h1
  · have hv : hexVal c = c.toNat - 48 := by
      unfold hexVal
      rw [if_pos h1]
    have hlt : hexVal c < 10 := by omega
    rw [toHexDigitUpper, if_pos hlt, hv, toUpper_eq_self (by omega)]
    have he : 48 + (c.toNat - 48) = c.toNat := by omega
    rw [he, Char.ofNat_toNat]
  · have hv : hexVal c = c.toNat - 97 + 10 := by
      unfold hexVal
      rw [if_neg (by omega), if_pos h1]
    have hlt : ¬(hexVal c < 10) := by omega
    rw [toHexDigitUpper, if_neg hlt, hv, toUpper_eq_sub (by omega)]
    have he : 55 + (c.toNat - 97 + 10) = c.toNat - 32 := by omega
    rw [he]
  · have hv : hexVal c = c.toNat - 65 + 10 := by
      unfold hexVal
      rw [if_neg (by omega), if_neg (by omega), if_pos h1]
    have hlt : ¬(hexVal c < 10) := by omega
    rw [toHexDigitUpper, if_neg hlt, hv, toUpper_eq_self (by omega)]
    have he : 55 + (c.toNat - 65 + 10) = c.toNat := by omega
    rw [he, Char.ofNat_toNat]

theorem byteToHex_get_long {c1 c2 : Char} (h1 : isHexDigit c1 = true)
    (h2 : isHexDigit c2 = true) :
    byteToHex (get_long c1 c2) = [c1.toUpper, c2.toUpper] := by
  have v1 := hexVal_lt_16 h1
  have v2 := hexVal_lt_16 h2
  have hd : get_long c1 c2 / 16 = hexVal c1 := by
    unfold get_long
    omega
  have hm : get_long c1 c2 % 16 = hexVal c2 := by
    unfold get_long
    omega
  rw [byteToHex, hd, hm, toHexDigitUpper_hexVal h1, toHexDigitUpper_hexVal h2]

theorem hash_not_hex : isHexDigit '#' = false := by decide

theorem trim_eq_self {l : List Char} (h : ∀ c ∈ l, is_whitespace c = false) :
    trim l = l := by
  have h1 : l.dropWhile is_whitespace = l := by
    rw [List.dropWhile_eq_self_iff]
    intro hl hws
    have hm := List.get_mem l 0 hl
    rw [h _ hm] at hws
    exact Bool.noConfusion hws
  have h2 : l.reverse.dropWhile is_whitespace = l.reverse := by
    rw [List.dropWhile_eq_self_iff]
    intro hl hws
    have hm := List.get_mem l.reverse 0 hl
    rw [List.mem_reverse] at hm
    rw [h _ hm] at hws
    exact Bool.noConfusion hws
  rw [trim, h1, h2, List.reverse_reverse]

theorem scan3 {c1 c2 c3 : Char} (h1 : isHexDigit c1 = true)
    (h2 : isHexDigit c2 = true) (h3 : isHexDigit c3 = true) :
    scanFrom true [c1, c2, c3] = some (.s [c1, c2, c3]) := by
  simp [scanFrom, tryMatch, tryLA, takeHex, h1, h2, h3, hex_ne_hash h1, hash_not_hex]

theorem scan3h {c1 c2 c3 : Char} (h1 : isHexDigit c1 = true)
    (h2 : isHexDigit c2 = true) (h3 : isHexDigit c3 = true) :
    scanFrom true ('#' :: [c1, c2, c3]) = some (.s [c1, c2, c3]) := by
  simp [scanFrom, tryMatch, tryLA, takeHex, h1, h2, h3, hex_ne_hash h1, hash_not_hex]

theorem scan4 {c1 c2 c3 c4 : Char} (h1 : isHexDigit c1 = true)
    (h2 : isHexDigit c2 = true) (h3 : isHexDigit c3 = true)
    (h4 : isHexDigit c4 = true) :
    scanFrom true [c1, c2, c3, c4] = some (.sa [c1, c2, c3, c4]) := by
  simp [scanFrom, tryMatch, tryLA, takeHex, h1, h2, h3, h4, hex_ne_hash h1, hash_not_hex]

theorem scan4h {c1 c2 c3 c4 : Char} (h1 : isHexDigit c1 = true)
    (h2 : isHexDigit c2 = true) (h3 : isHexDigit c3 = true)
    (h4 : isHexDigit c4 = true) :
    scanFrom true ('#' :: [c1, c2, c3, c4]) = some (.sa [c1, c2, c3, c4]) := by
  simp [scanFrom, tryMatch, tryLA, takeHex, h1, h2, h3, h4, hex_ne_hash h1, hash_not_hex]

theorem scan6 {c1 c2 c3 c4 c5 c6 : Char} (h1 : isHexDigit c1 = true)
    (h2 : isHexDigit c2 = true) (h3 : isHexDigit c3 = true)
    (h4 : isHexDigit c4 = true) (h5 : isHexDigit c5 = true)
    (h6 : isHexDigit c6 = true) :
    scanFrom true [c1, c2, c3, c4, c5, c6] = some (.l [c1, c2, c3, c4, c5, c6]) := by
  simp [scanFrom, tryMatch, tryLA, takeHex, h1, h2, h3, h4, h5, h6, hex_ne_hash h1,
    hash_not_hex]

theorem scan6h {c1 c2 c3 c4 c5 c6 : Char} (h1 : isHexDigit c1 = true)
    (h2 : isHexDigit c2 = true) (h3 : isHexDigit c3 = true)
    (h4 : isHexDigit c4 = true) (h5 : isHexDigit c5 = true)
    (h6 : isHexDigit c6 = true) :
    scanFrom true ('#' :: [c1, c2, c3, c4, c5, c6]) =
      some (.l [c1, c2, c3, c4, c5, c6]) := by
  simp [scanFrom, tryMatch, tryLA, takeHex, h1, h2, h3, h4, h5, h6, hex_ne_hash h1,
    hash_not_hex]

theorem scan8 {c1 c2 c3 c4 c5 c6 c7 c8 : Char} (h1 : isHexDigit c1 = true)
    (h2 : isHexDigit c2 = true) (h3 : isHexDigit c3 = true)
    (h4 : isHexDigit c4 = true) (h5 : isHexDigit c5 = true)
    (h6 : isHexDigit c6 = true) (h7 : isHexDigit c7 = true)
    (h8 : isHexDigit c8 = true) :
    scanFrom true [c1, c2, c3, c4, c5, c6, c7, c8] =
      some (.la [c1, c2, c3, c4, c5, c6, c7, c8]) := by
  simp [scanFrom, tryMatch, tryLA, takeHex, h1, h2, h3, h4, h5, h6, h7, h8,
    hex_ne_hash h1, hash_not_hex]

theorem scan8h {c1 c2 c3 c4 c5 c6 c7 c8 : Char} (h1 : isHexDigit c1 = true)
    (h2 : isHexDigit c2 = true) (h3 : isHexDigit c3 = true)
    (h4 : isHexDigit c4 = true) (h5 : isHexDigit c5 = true)
    (h6 : isHexDigit c6 = true) (h7 : isHexDigit c7 = true)
    (h8 : isHexDigit c8 = true) :
    scanFrom true ('#' :: [c1, c2, c3, c4, c5, c6, c7, c8]) =
      some (.la [c1, c2, c3, c4, c5, c6, c7, c8]) := by
  simp [scanFrom, tryMatch, tryLA, takeHex, h1, h2, h3, h4, h5, h6, h7, h8,
    hex_ne_hash h1, hash_not_hex]

theorem hex_list_not_ws {l : List Char} (h : ∀ c ∈ l, isHexDigit c = true) :
    ∀ c ∈ l, is_whitespace c = false :=
  fun c hc => hex_not_ws (h c hc)

theorem hash_hex_list_not_ws {l : List Char} (h : ∀ c ∈ l, isHexDigit c = true) :
    ∀ c ∈ '#' :: l, is_whitespace c = false := by
  intro c hc
  rcases List.mem_cons.mp hc with rfl | hc
  · exact hash_not_ws
  · exact hex_not_ws (h c hc)

theorem from_str_s {c1 c2 c3 : Char} (h1 : isHexDigit c1 = true)
    (h2 : isHexDigit c2 = true) (h3 : isHexDigit c3 = true) :
    HexColor.from_str [c1, c2, c3] =
        .ok ⟨get_short c1, get_short c2, get_short c3, none⟩ ∧
      HexColor.from_str ('#' :: [c1, c2, c3]) =
        .ok ⟨get_short c1, get_short c2, get_short c3, none⟩ := by
  have hall : ∀ c ∈ [c1, c2, c3], isHexDigit c = true := by
    intro c hc
    simp at hc
    rcases hc with rfl | rfl | rfl <;> assumption
  constructor
  · simp [HexColor.from_str, trim_eq_self (hex_list_not_ws hall), scan3 h1 h2 h3]
  · simp [HexColor.from_str, trim_eq_self (hash_hex_list_not_ws hall), scan3h h1 h2 h3]

theorem from_str_sa {c1 c2 c3 c4 : Char} (h1 : isHexDigit c1 = true)
    (h2 : isHexDigit c2 = true) (h3 : isHexDigit c3 = true)
    (h4 : isHexDigit c4 = true) :
    HexColor.from_str [c1, c2, c3, c4] =
        .ok ⟨get_short c1, get_short c2, get_short c3, some (get_short c4)⟩ ∧
      HexColor.from_str ('#' :: [c1, c2, c3, c4]) =
        .ok ⟨get_short c1, get_short c2, get_short c3, some (get_short c4)⟩ := by
  have hall : ∀ c ∈ [c1, c2, c3, c4], isHexDigit c = true := by
    intro c hc
    simp at hc
    rcases hc with rfl | rfl | rfl | rfl <;> assumption
  constructor
  · simp [HexColor.from_str, trim_eq_self (hex_list_not_ws hall), scan4 h1 h2 h3 h4]
  · simp [HexColor.from_str, trim_eq_self (hash_hex_list_not_ws hall),
      scan4h h1 h2 h3 h4]

theorem from_str_l {c1 c2 c3 c4 c5 c6 : Char} (h1 : isHexDigit c1 = true)
    (h2 : isHexDigit c2 = true) (h3 : isHexDigit c3 = true)
    (h4 : isHexDigit c4 = true) (h5 : isHexDigit c5 = true)
    (h6 : isHexDigit c6 = true) :
    HexColor.from_str [c1, c2, c3, c4, c5, c6] =
        .ok ⟨get_long c1 c2, get_long c3 c4, get_long c5 c6, none⟩ ∧
      HexColor.from_str ('#' :: [c1, c2, c3, c4, c5, c6]) =
        .ok ⟨get_long c1 c2, get_long c3 c4, get_long c5 c6, none⟩ := by
  have hall : ∀ c ∈ [c1, c2, c3, c4, c5, c6], isHexDigit c = true := by
    intro c hc
    simp at hc
    rcases hc with rfl | rfl | rfl | rfl | rfl | rfl <;> assumption
  constructor
  · simp [HexColor.from_str, trim_eq_self (hex_list_not_ws hall),
      scan6 h1 h2 h3 h4 h5 h6]
  · simp [HexColor.from_str, trim_eq_self (hash_hex_list_not_ws hall),
      scan6h h1 h2 h3 h4 h5 h6]

theorem from_str_la {c1 c2 c3 c4 c5 c6 c7 c8 : Char} (h1 : isHexDigit c1 = true)
    (h2 : isHexDigit c2 = true) (h3 : isHexDigit c3 = true)
    (h4 : isHexDigit c4 = true) (h5 : isHexDigit c5 = true)
    (h6 : isHexDigit c6 = true) (h7 : isHexDigit c7 = true)
    (h8 : isHexDigit c8 = true) :
    HexColor.from_str [c1, c2, c3, c4, c5, c6, c7, c8] =
        .ok ⟨get_long c1 c2, get_long c3 c4, get_long c5 c6, some (get_long c7 c8)⟩ ∧
      HexColor.from_str ('#' :: [c1, c2, c3, c4, c5, c6, c7, c8]) =
        .ok ⟨get_long c1 c2, get_long c3 c4, get_long c5 c6, some (get_long c7 c8)⟩ := by
  have hall : ∀ c ∈ [c1, c2, c3, c4, c5, c6, c7, c8], isHexDigit c = true := by
    intro c hc
    simp at hc
    rcases hc with rfl | rfl | rfl | rfl | rfl | rfl | rfl | rfl <;> assumption
  constructor
  · simp [HexColor.from_str, trim_eq_self (hex_list_not_ws hall),
      scan8 h1 h2 h3 h4 h5 h6 h7 h8]
  · simp [HexColor.from_str, trim_eq_self (hash_hex_list_not_ws hall),
      scan8h h1 h2 h3 h4 h5 h6 h7 h8]

theorem get_short_eq (c : Char) : get_short c = 17 * hexVal c := by
  unfold get_short
  omega

/-- C2: for every well-formed input (with or without the leading marker),
Parse assigns channels by length.  A 3-digit body doubles each hex digit into
a byte (value `17 * v`) with alpha absent; a 4-digit body additionally doubles
an alpha digit; a 6-digit body converts consecutive digit pairs
(`16 * hi + lo`) with alpha absent; an 8-digit body converts four pairs with
alpha present.  In particular `Parse("000")` has `a = none` and
`Parse("000f")` has `a = some 255`. -/
theorem parse_length_dispatch :
    (∀ c1 c2 c3 : Char, isHexDigit c1 = true → isHexDigit c2 = true →
        isHexDigit c3 = true →
        HexColor.from_str [c1, c2, c3] =
            .ok ⟨17 * hexVal c1, 17 * hexVal c2, 17 * hexVal c3, none⟩ ∧
          HexColor.from_str ('#' :: [c1, c2, c3]) =
            .ok ⟨17 * hexVal c1, 17 * hexVal c2, 17 * hexVal c3, none⟩) ∧
    (∀ c1 c2 c3 c4 : Char, isHexDigit c1 = true → isHexDigit c2 = true →
        isHexDigit c3 = true → isHexDigit c4 = true →
        HexColor.from_str [c1, c2, c3, c4] =
            .ok ⟨17 * hexVal c1, 17 * hexVal c2, 17 * hexVal c3,
              some (17 * hexVal c4)⟩ ∧
          HexColor.from_str ('#' :: [c1, c2, c3, c4]) =
            .ok ⟨17 * hexVal c1, 17 * hexVal c2, 17 * hexVal c3,
              some (17 * hexVal c4)⟩) ∧
    (∀ c1 c2 c3 c4 c5 c6 : Char, isHexDigit c1 = true → isHexDigit c2 = true →
        isHexDigit c3 = true → isHexDigit c4 = true → isHexDigit c5 = true →
        isHexDigit c6 = true →
        HexColor.from_str [c1, c2, c3, c4, c5, c6] =
            .ok ⟨16 * hexVal c1 + hexVal c2, 16 * hexVal c3 + hexVal c4,
              16 * hexVal c5 + hexVal c6, none⟩ ∧
          HexColor.from_str ('#' :: [c1, c2, c3, c4, c5, c6]) =
            .ok ⟨16 * hexVal c1 + hexVal c2, 16 * hexVal c3 + hexVal c4,
              16 * hexVal c5 + hexVal c6, none⟩) ∧
    (∀ c1 c2 c3 c4 c5 c6 c7 c8 : Char, isHexDigit c1 = true →
        isHexDigit c2 = true → isHexDigit c3 = true → isHexDigit c4 = true →
        isHexDigit c5 = true → isHexDigit c6 = true → isHexDigit c7 = true →
        isHexDigit c8 = true →
        HexColor.from_str [c1, c2, c3, c4, c5, c6, c7, c8] =
            .ok ⟨16 * hexVal c1 + hexVal c2, 16 * hexVal c3 + hexVal c4,
              16 * hexVal c5 + hexVal c6, some (16 * hexVal c7 + hexVal c8)⟩ ∧
          HexColor.from_str ('#' :: [c1, c2, c3, c4, c5, c6, c7, c8]) =
            .ok ⟨16 * hexVal c1 + hexVal c2, 16 * hexVal c3 + hexVal c4,
              16 * hexVal c5 + hexVal c6, some (16 * hexVal c7 + hexVal c8)⟩) ∧
    HexColor.from_str "000".toList = .ok ⟨0, 0, 0, none⟩ ∧
    HexColor.from_str "000f".toList = .ok ⟨0, 0, 0, some 255⟩ := by
  refine ⟨?_, ?_, ?_, ?_, by decide, by decide⟩
  · intro c1 c2 c3 h1 h2 h3
    simpa [get_short_eq] using from_str_s h1 h2 h3
  · intro c1 c2 c3 c4 h1 h2 h3 h4
    simpa [get_short_eq] using from_str_sa h1 h2 h3 h4
  · intro c1 c2 c3 c4 c5 c6 h1 h2 h3 h4 h5 h6
    simpa [get_long] using from_str_l h1 h2 h3 h4 h5 h6
  · intro c1 c2 c3 c4 c5 c6 c7 c8 h1 h2 h3 h4 h5 h6 h7 h8
    simpa [get_long] using from_str_la h1 h2 h3 h4 h5 h6 h7 h8

/-- C4: round-trip law.  For every valid 6-digit or 8-digit canonical string
(the marker followed by 6 or 8 hex digits), parsing succeeds and formatting
the parsed color gives back the string case-normalized to uppercase; the
formatted output is the marker, two uppercase hex digits per channel in order
r, g, b, plus two for alpha exactly when alpha is present. -/
theorem format_parse_roundtrip (d : List Char)
    (hhex : ∀ c ∈ d, isHexDigit c = true) (hlen : d.length = 6 ∨ d.length = 8) :
    ∃ col, HexColor.from_str ('#' :: d) = .ok col ∧
      HexColor.fmt col = '#' :: d.map Char.toUpper := by
  rcases hlen with h6 | h8
  · obtain ⟨c1, c2, c3, c4, c5, c6, rfl⟩ :
        ∃ c1 c2 c3 c4 c5 c6, d = [c1, c2, c3, c4, c5, c6] := by
      rcases d with _ | ⟨c1, d⟩
      · simp at h6
      rcases d with _ | ⟨c2, d⟩
      · simp at h6
      rcases d with _ | ⟨c3, d⟩
      · simp at h6
      rcases d with _ | ⟨c4, d⟩
      · simp at h6
      rcases d with _ | ⟨c5, d⟩
      · simp at h6
      rcases d with _ | ⟨c6, d⟩
      · simp at h6
      rcases d with _ | ⟨c7, d⟩
      · exact ⟨c1, c2, c3, c4, c5, c6, rfl⟩
      · simp at h6
    have h1 := hhex c1 (by simp)
    have h2 := hhex c2 (by simp)
    have h3 := hhex c3 (by simp)
    have h4 := hhex c4 (by simp)
    have h5 := hhex c5 (by simp)
    have h6' := hhex c6 (by simp)
    refine ⟨_, (from_str_l h1 h2 h3 h4 h5 h6').2, ?_⟩
    simp [HexColor.fmt, byteToHex_get_long h1 h2, byteToHex_get_long h3 h4,
      byteToHex_get_long h5 h6']
  · obtain ⟨c1, c2, c3, c4, c5, c6, c7, c8, rfl⟩ :
        ∃ c1 c2 c3 c4 c5 c6 c7 c8, d = [c1, c2, c3, c4, c5, c6, c7, c8] := by
      rcases d with _ | ⟨c1, d⟩
      · simp at h8
      rcases d with _ | ⟨c2, d⟩
      · simp at h8
      rcases d with _ | ⟨c3, d⟩
      · simp at h8
      rcases d with _ | ⟨c4, d⟩
      · simp at h8
      rcases d with _ | ⟨c5, d⟩
      · simp at h8
      rcases d with _ | ⟨c6, d⟩
      · simp at h8
      rcases d with _ | ⟨c7, d⟩
      · simp at h8
      rcases d with _ | ⟨c8, d⟩
      · simp at h8
      rcases d with _ | ⟨c9, d⟩
      · exact ⟨c1, c2, c3, c4, c5, c6, c7, c8, rfl⟩
      · simp at h8
    have h1 := hhex c1 (by simp)
    have h2 := hhex c2 (by simp)
    have h3 := hhex c3 (by simp)
    have h4 := hhex c4 (by simp)
    have h5 := hhex c5 (by simp)
    have h6' := hhex c6 (by simp)
    have h7 := hhex c7 (by simp)
    have h8' := hhex c8 (by simp)
    refine ⟨_, (from_str_la h1 h2 h3 h4 h5 h6' h7 h8').2, ?_⟩
    simp [HexColor.fmt, byteToHex_get_long h1 h2, byteToHex_get_long h3 h4,
      byteToHex_get_long h5 h6', byteToHex_get_long h7 h8']

theorem land_255_eq_mod (u : Nat) : u &&& 255 = u % 256 := by
  apply Nat.eq_of_testBit_eq
  intro i
  rw [Nat.testBit_and]
  have h : (256 : Nat) = 2 ^ 8 := by norm_num
  rw [h, Nat.testBit_mod_two_pow]
  rcases Nat.lt_or_ge i 8 with hi | hi
  · have hb : (255 : Nat).testBit i = true := by
      interval_cases i <;> decide
    simp [hb, hi]
  · have hb : (255 : Nat).testBit i = false := by
      have : (255 : Nat) < 2 ^ i :=
        lt_of_lt_of_le (by norm_num) (Nat.pow_le_pow_right (by norm_num) hi)
      exact Nat.testBit_lt_two_pow this
    simp [hb, Nat.not_lt.mpr hi]

/-- C9: every sampled color has alpha absent; sampling draws one 32-bit value
and takes its three low-order bytes as r, g, b. -/
theorem sample_spec (u : Nat) :
    sample u = HexColor.rgb (u % 256) (u / 256 % 256) (u / 65536 % 256) ∧
    (sample u).a = none := by
  refine ⟨?_, rfl⟩
  unfold sample
  rw [land_255_eq_mod, land_255_eq_mod, land_255_eq_mod,
    Nat.shiftRight_eq_div_pow, Nat.shiftRight_eq_div_pow]

theorem cmpNat_lt {x y : Nat} : cmpNat x y = .lt ↔ x < y := by
  unfold cmpNat
  split_ifs <;> simp_all

theorem cmpNat_eq {x y : Nat} : cmpNat x y = .eq ↔ x = y := by
  unfold cmpNat
  split_ifs <;> simp_all
  omega

theorem cmpOptionNat_eq {a b : Option Nat} : cmpOptionNat a b = .eq ↔ a = b := by
  cases a <;> cases b <;> simp [cmpOptionNat, cmpNat_eq]

theorem cmpOptionNat_lt {a b : Option Nat} :
    cmpOptionNat a b = .lt ↔
      (a = none ∧ ∃ x, b = some x) ∨ ∃ x y, a = some x ∧ b = some y ∧ x < y := by
  cases a <;> cases b <;> simp [cmpOptionNat, cmpNat_lt]

theorem cmp_def (c o : HexColor) :
    HexColor.cmp c o =
      if c.r < o.r then .lt else if o.r < c.r then .gt
      else if c.g < o.g then .lt else if o.g < c.g then .gt
      else if c.b < o.b then .lt else if o.b < c.b then .gt
      else cmpOptionNat c.a o.a := by
  unfold HexColor.cmp cmpNat
  split_ifs <;> first | rfl | omega

/-- C10: the derived ordering is lexicographic over (r, g, b, a), with absent
alpha sorting strictly before present alpha (even `some 0`), and compares
equal exactly when the colors are equal. -/
theorem derived_ord_lex (c o : HexColor) :
    (HexColor.cmp c o = .eq ↔ c = o) ∧
    (c.r = o.r → c.g = o.g → c.b = o.b → c.a = none → ∀ x, o.a = some x →
      HexColor.cmp c o = .lt) ∧
    (HexColor.cmp c o = .lt ↔
      (c.r < o.r ∨ (c.r = o.r ∧ (c.g < o.g ∨ (c.g = o.g ∧ (c.b < o.b ∨
        (c.b = o.b ∧ ((c.a = none ∧ ∃ x, o.a = some x) ∨
          ∃ x y, c.a = some x ∧ o.a = some y ∧ x < y)))))))) := by
  obtain ⟨r1, g1, b1, a1⟩ := c
  obtain ⟨r2, g2, b2, a2⟩ := o
  rw [cmp_def]
  dsimp only
  refine ⟨?_, ?_, ?_⟩
  · split_ifs with h1 h2 h3 h4 h5 h6 <;>
      simp_all [cmpOptionNat_eq, HexColor.mk.injEq] <;> try omega
    constructor
    · intro h
      exact ⟨by omega, by omega, by omega, h⟩
    · intro h
      exact h.2.2.2
  · intro e1 e2 e3 e4 x e5
    subst e1; subst e2; subst e3; subst e4; subst e5
    simp [cmpOptionNat]
  · split_ifs with h1 h2 h3 h4 h5 h6 <;>
      simp_all [cmpOptionNat_lt] <;> try omega
    constructor
    · intro h
      exact Or.inr ⟨by omega, Or.inr ⟨by omega, Or.inr ⟨by omega, h⟩⟩⟩
    · rintro (h | ⟨-, h | ⟨-, h | ⟨-, h⟩⟩⟩)
      · omega
      · omega
      · omega
      · exact h

/-- C3: color + color and color - color compute r, g, b by u8 saturating
addition/subtraction, clamped to [0, 255] and never wrapping, and the result
alpha follows the propagation table: both present combines with the same
saturating operation, left present and right absent keeps the left alpha,
left absent gives absent regardless of the right operand. -/
theorem color_color_add_sub (c o : HexColor) (hc : c.Valid) (ho : o.Valid) :
    (((c.add o).r : Int) = max 0 (min ((c.r : Int) + o.r) 255) ∧
      ((c.add o).g : Int) = max 0 (min ((c.g : Int) + o.g) 255) ∧
      ((c.add o).b : Int) = max 0 (min ((c.b : Int) + o.b) 255) ∧
      ((c.sub o).r : Int) = max 0 (min ((c.r : Int) - o.r) 255) ∧
      ((c.sub o).g : Int) = max 0 (min ((c.g : Int) - o.g) 255) ∧
      ((c.sub o).b : Int) = max 0 (min ((c.b : Int) - o.b) 255)) ∧
    (c.add o).Valid ∧ (c.sub o).Valid ∧
    (∀ x y, c.a = some x → o.a = some y →
      (c.add o).a = some (min (x + y) 255) ∧ (c.sub o).a = some (x - y)) ∧
    (∀ x, c.a = some x → o.a = none →
      (c.add o).a = some x ∧ (c.sub o).a = some x) ∧
    (c.a = none → (c.add o).a = none ∧ (c.sub o).a = none) := by
  obtain ⟨r1, g1, b1, a1⟩ := c
  obtain ⟨r2, g2, b2, a2⟩ := o
  obtain ⟨hcr, hcg, hcb, hca⟩ := hc
  obtain ⟨hor, hog, hob, hoa⟩ := ho
  simp only at hcr hcg hcb hca hor hog hob hoa
  refine ⟨?_, ?_, ?_, ?_, ?_, ?_⟩
  · unfold HexColor.add HexColor.sub saturating_add saturating_sub
    dsimp only
    refine ⟨?_, ?_, ?_, ?_, ?_, ?_⟩ <;> (push_cast; omega)
  · unfold HexColor.Valid HexColor.add saturating_add alpha_op
    dsimp only
    refine ⟨by omega, by omega, by omega, ?_⟩
    intro x hx
    rcases a2 with _ | y <;> rcases a1 with _ | z <;> simp at hx
    · rw [hx] at hca
      exact hca x rfl
    · subst hx
      exact Nat.min_le_right _ _
  · unfold HexColor.Valid HexColor.sub saturating_sub alpha_op
    dsimp only
    refine ⟨by omega, by omega, by omega, ?_⟩
    intro x hx
    rcases a2 with _ | y <;> rcases a1 with _ | z <;> simp at hx
    · rw [hx] at hca
      exact hca x rfl
    · have := hca z rfl
      omega
  · intro x y hx hy
    dsimp only at hx hy
    subst hx
    subst hy
    simp [HexColor.add, HexColor.sub, alpha_op, saturating_add, saturating_sub]
  · intro x hx hy
    dsimp only at hx hy
    subst hx
    subst hy
    simp [HexColor.add, HexColor.sub, alpha_op]
  · intro hx
    dsimp only at hx
    subst hx
    rcases a2 with _ | y <;>
      simp [HexColor.add, HexColor.sub, alpha_op]

theorem clampByte_le (x : Int) : clampByte x ≤ 255 := by
  unfold clampByte
  omega

theorem tdiv_bound {s : Nat} {n : Int} (hs : s ≤ 255) :
    -255 ≤ Int.tdiv (s : Int) n ∧ Int.tdiv (s : Int) n ≤ 255 := by
  rcases le_or_lt 0 n with hn | hn
  · rw [Int.tdiv_eq_ediv (by positivity) hn]
    have h1 : (s : Int) / n ≤ (s : Int) := Int.ediv_le_self n (by positivity)
    have h2 : 0 ≤ (s : Int) / n := Int.ediv_nonneg (by positivity) hn
    omega
  · have he : n = -(-n) := by ring
    rw [he, Int.tdiv_neg]
    have hpos : 0 ≤ -n := by omega
    rw [Int.tdiv_eq_ediv (by positivity) hpos]
    have h1 : (s : Int) / (-n) ≤ (s : Int) := Int.ediv_le_self _ (by positivity)
    have h2 : 0 ≤ (s : Int) / (-n) := Int.ediv_nonneg (by positivity) hpos
    omega

theorem calc_div_i32_eq {n : Int} {s : Nat} (hs : s ≤ 255) (hn : n ≠ 0) :
    calc_div_i32 n s = some (clampByte (Int.tdiv (s : Int) n)) := by
  have hb := tdiv_bound (n := n) hs
  simp only [calc_div_i32, i32Min, i32Max]
  rw [if_neg hn, if_pos (by omega)]

theorem calc_sub_i32_eq {n : Int} {s : Nat} (hs : s ≤ 255)
    (h1 : -2147483392 ≤ n) (h2 : n ≤ 2147483647) :
    calc_sub_i32 n s = some (clampByte ((s : Int) - n)) := by
  simp only [calc_sub_i32, i32Min, i32Max]
  rw [if_pos (by omega)]

/-- C6 (amended): the symmetric operator `n - c` is NOT the mirror; the code
body is `other - self`, so `n - c` equals the color-first subtraction `c - n`:
each result channel is that channel of `c` minus `n` (never `n` minus the
channel), clamped to [0, 255], with a present alpha transformed the same way.
The scalar bounds keep the i32 subtraction free of overflow. -/
theorem scalar_minus_color_eq_color_minus_scalar (n : Int) (c : HexColor)
    (hc : c.Valid) (h1 : -2147483392 ≤ n) (h2 : n ≤ 2147483647) :
    i32_sub_HexColor n c = c.sub_i32 n ∧
    i32_sub_HexColor n c =
      some ⟨clampByte ((c.r : Int) - n), clampByte ((c.g : Int) - n),
        clampByte ((c.b : Int) - n),
        c.a.map (fun x => clampByte ((x : Int) - n))⟩ := by
  refine ⟨rfl, ?_⟩
  obtain ⟨r, g, b, a⟩ := c
  obtain ⟨hr, hg, hb, ha⟩ := hc
  simp only at hr hg hb ha
  cases a with
  | none =>
    simp [i32_sub_HexColor, HexColor.sub_i32, mapComponents,
      calc_sub_i32_eq hr h1 h2, calc_sub_i32_eq hg h1 h2, calc_sub_i32_eq hb h1 h2]
  | some x =>
    have hx : x ≤ 255 := ha x rfl
    simp [i32_sub_HexColor, HexColor.sub_i32, mapComponents,
      calc_sub_i32_eq hr h1 h2, calc_sub_i32_eq hg h1 h2, calc_sub_i32_eq hb h1 h2,
      calc_sub_i32_eq hx h1 h2]

/-- C7 (amended): the crate defines no arithmetic error type at all.
Division of a color by the integer scalar 0 panics (modelled as `none`)
instead of returning a typed error; for every nonzero integer divisor,
division is total: each channel becomes `channel / n` (truncated toward
zero) clamped to [0, 255], a valid color. -/
theorem div_scalar_total_unless_zero (c : HexColor) (n : Int)
    (hc : c.Valid) (hn : n ≠ 0) :
    HexColor.div_i32 c 0 = none ∧
    HexColor.div_i32 c n =
      some ⟨clampByte (Int.tdiv (c.r : Int) n), clampByte (Int.tdiv (c.g : Int) n),
        clampByte (Int.tdiv (c.b : Int) n),
        c.a.map (fun x => clampByte (Int.tdiv (x : Int) n))⟩ ∧
    (∀ c', HexColor.div_i32 c n = some c' → c'.Valid) := by
  obtain ⟨r, g, b, a⟩ := c
  obtain ⟨hr, hg, hb, ha⟩ := hc
  simp only at hr hg hb ha
  have hzero : HexColor.div_i32 ⟨r, g, b, a⟩ 0 = none := by
    cases a <;> simp [HexColor.div_i32, mapComponents, calc_div_i32]
  have hmain : HexColor.div_i32 ⟨r, g, b, a⟩ n =
      some ⟨clampByte (Int.tdiv (r : Int) n), clampByte (Int.tdiv (g : Int) n),
        clampByte (Int.tdiv (b : Int) n),
        a.map (fun x => clampByte (Int.tdiv (x : Int) n))⟩ := by
    cases a with
    | none =>
      simp [HexColor.div_i32, mapComponents, calc_div_i32_eq hr hn,
        calc_div_i32_eq hg hn, calc_div_i32_eq hb hn]
    | some x =>
      have hx : x ≤ 255 := ha x rfl
      simp [HexColor.div_i32, mapComponents, calc_div_i32_eq hr hn,
        calc_div_i32_eq hg hn, calc_div_i32_eq hb hn, calc_div_i32_eq hx hn]
  refine ⟨hzero, hmain, ?_⟩
  intro c' hc'
  rw [hmain] at hc'
  cases hc'
  refine ⟨clampByte_le _, clampByte_le _, clampByte_le _, ?_⟩
  intro x hx
  cases a with
  | none => simp at hx
  | some y =>
    simp at hx
    rw [← hx]
    exact clampByte_le _

/-- C1 (evaluation at the failing input): the claim requires `from_str` to
reject every input whose body is not exactly 3, 4, 6 or 8 hex digits, but the
10-digit input "0011223344" parses successfully: the `la` alternative of
`HEX_COLOR` is anchored only on the left, so the first 8 digits match and the
trailing "44" is ignored. -/
theorem from_str_accepts_ten_digits :
    HexColor.from_str "0011223344".toList = .ok ⟨0, 17, 34, some 51⟩ := by decide

/-- C5 (evaluation at the failing input): `HexColor::rgb(255, 0, 0) + 1u8`
does not clamp to 255.  In the `u8` instantiation of `add_impl!` the promoted
domain is `u8` itself, so `s as u8 + other` overflows: a panic in debug
builds (modelled as `none`) and a wrap to 0 in release builds — either way
not the claimed clamped result. -/
theorem add_u8_overflow_panics :
    HexColor.add_u8 (HexColor.rgb 255 0 0) 1 = none := by decide

/-- C6 counterexample: at `n = 3`, `c = rgb(0, 0, 0)` the claim requires the
result channels to be `3 - 0 = 3`; the code instead computes `0 - 3` clamped
to 0, differing from the spec-modelled mirror subtraction. -/
theorem scalar_minus_color_not_mirror :
    i32_sub_HexColor 3 (HexColor.rgb 0 0 0) = some (HexColor.rgb 0 0 0) ∧
    spec_mirror_sub_i32 3 (HexColor.rgb 0 0 0) = some (HexColor.rgb 3 3 3) ∧
    i32_sub_HexColor 3 (HexColor.rgb 0 0 0) ≠
      spec_mirror_sub_i32 3 (HexColor.rgb 0 0 0) := by decide

/-- C7 counterexample: dividing `rgb(1, 1, 1)` by the integer scalar 0
produces no value at all (`none` models the Rust division-by-zero panic);
no `DomainError`-like value is returned, contradicting the claim that
division by zero yields a returned, typed error. -/
theorem div_by_zero_no_error_value :
    HexColor.div_i32 (HexColor.rgb 1 1 1) 0 = none := by decide

/-- C8: scalar commutativity.  `n + c` and `n * c` delegate to `c + n` and
`c * n` (`other + self`, `other * self` in the source), so the scalar-first
and color-first forms produce identical results, shown here for the modelled
`i32` and `u8` instantiations. -/
theorem scalar_commutativity (n : Int) (m : Nat) (c : HexColor) :
    i32_add_HexColor n c = c.add_i32 n ∧ i32_mul_HexColor n c = c.mul_i32 n ∧
    u8_add_HexColor m c = c.add_u8 m :=
  ⟨rfl, rfl, rfl⟩

/-- Witness for `parse_length_dispatch` at the concrete input "f0f". -/
theorem parse_length_dispatch_witness :
    HexColor.from_str ['f', '0', 'f'] =
      .ok ⟨17 * hexVal 'f', 17 * hexVal '0', 17 * hexVal 'f', none⟩ :=
  (parse_length_dispatch.1 'f' '0' 'f' (by decide) (by decide) (by decide)).1

/-- Witness for `color_color_add_sub` at concrete colors: the saturating
alpha addition 50 + 20 = 70. -/
theorem color_color_add_sub_witness :
    ((HexColor.rgba 200 0 100 50).add (HexColor.rgba 100 3 200 20)).a = some 70 := by
  have h := color_color_add_sub (HexColor.rgba 200 0 100 50)
    (HexColor.rgba 100 3 200 20) (by decide) (by decide)
  have h4 := h.2.2.2.1 50 20 rfl rfl
  simpa using h4.1

/-- Witness for `format_parse_roundtrip` at the concrete input "#a1b2c3". -/
theorem format_parse_roundtrip_witness :
    ∃ col, HexColor.from_str ('#' :: "a1b2c3".toList) = .ok col ∧
      HexColor.fmt col = '#' :: "a1b2c3".toList.map Char.toUpper :=
  format_parse_roundtrip "a1b2c3".toList (by decide) (by decide)

/-- Witness for `scalar_minus_color_eq_color_minus_scalar` at `n = 10`. -/
theorem scalar_minus_color_witness :
    i32_sub_HexColor 10 (HexColor.rgba 7 200 30 5) =
        (HexColor.rgba 7 200 30 5).sub_i32 10 ∧
      i32_sub_HexColor 10 (HexColor.rgba 7 200 30 5) =
        some ⟨clampByte (((HexColor.rgba 7 200 30 5).r : Int) - 10),
          clampByte (((HexColor.rgba 7 200 30 5).g : Int) - 10),
          clampByte (((HexColor.rgba 7 200 30 5).b : Int) - 10),
          (HexColor.rgba 7 200 30 5).a.map (fun x => clampByte ((x : Int) - 10))⟩ :=
  scalar_minus_color_eq_color_minus_scalar 10 (HexColor.rgba 7 200 30 5)
    (by decide) (by decide) (by decide)

/-- Witness for `div_scalar_total_unless_zero` at divisor 2. -/
theorem div_scalar_total_unless_zero_witness :
    HexColor.div_i32 (HexColor.rgba 255 19 0 80) 0 = none ∧
      HexColor.div_i32 (HexColor.rgba 255 19 0 80) 2 =
        some ⟨clampByte (Int.tdiv ((HexColor.rgba 255 19 0 80).r : Int) 2),
          clampByte (Int.tdiv ((HexColor.rgba 255 19 0 80).g : Int) 2),
          clampByte (Int.tdiv ((HexColor.rgba 255 19 0 80).b : Int) 2),
          (HexColor.rgba 255 19 0 80).a.map
            (fun x => clampByte (Int.tdiv (x : Int) 2))⟩ ∧
      (∀ c', HexColor.div_i32 (HexColor.rgba 255 19 0 80) 2 = some c' →
        c'.Valid) :=
  div_scalar_total_unless_zero (HexColor.rgba 255 19 0 80) 2 (by decide)
    (by decide)

/-- Witness for `derived_ord_lex`: rgb(1,2,3) sorts strictly below
rgba(1,2,3,0). -/
theorem derived_ord_lex_witness :
    HexColor.cmp (HexColor.rgb 1 2 3) (HexColor.rgba 1 2 3 0) = .lt :=
  (derived_ord_lex (HexColor.rgb 1 2 3) (HexColor.rgba 1 2 3 0)).2.1
    rfl rfl rfl rfl 0 rfl
